import Mathlib

/-!
Verification development for the telnet session manager and command-execution
protocol described in spec.md (the `chuk-mcp-telnet-client` core).

The repository ships only the test suite and example scripts; the core package
itself (session store, command executor, echo/response extractor, lifecycle
controller) is not among the source files.  Every definition below carrying a
doc comment beginning `Modelled from the spec:` is therefore a shallow
embedding written from the specification's words (spec.md sections 3-7),
cross-checked against the behaviour pinned by `tests/test_telnet_client.py`.

Text is modelled as `List Char` (the spec's extractor decodes bytes
permissively to text; decoding itself is treated as the identity on the
decoded text).  Wall-clock quantities (`command_delay`, `response_wait`,
timestamps) are real-time behaviour and are not modelled; a read window that
elapses with no data is modelled by the transport yielding the empty list.
-/

/-- Boolean test that the first list is a leading segment of the second. -/
def leadsWith : List Char → List Char → Bool
  | [], _ => true
  | _ :: _, [] => false
  | a :: as, b :: bs => a == b && leadsWith as bs

/-- Boolean test that `pat` occurs as a contiguous segment of the text. -/
def containsSeg (pat : List Char) : List Char → Bool
  | [] => pat.isEmpty
  | c :: rest => leadsWith pat (c :: rest) || containsSeg pat rest

/-- Modelled from the spec: step 3 of the Echo/Response Extractor (4.2),
"normalize line terminators but preserve all other whitespace": CRLF becomes
LF and a lone CR becomes LF; every other character is kept verbatim. -/
def normEol : List Char → List Char
  | [] => []
  | [c] => if c = '\r' then ['\n'] else [c]
  | c :: d :: rest =>
    if c = '\r' then
      if d = '\n' then '\n' :: normEol rest
      else '\n' :: normEol (d :: rest)
    else c :: normEol (d :: rest)

/-- Modelled from the spec: the "optionally followed by the line terminator"
part of extractor step 2 — after the echoed command, one line terminator
(CRLF, LF or CR) is consumed if present. -/
def dropTerm : List Char → List Char
  | '\r' :: '\n' :: rest => rest
  | '\n' :: rest => rest
  | '\r' :: rest => rest
  | t => t

/-- Modelled from the spec: the Echo/Response Extractor (4.2), a pure
transformation of the raw text plus the command that was sent.  When
`stripEcho` is set and the text begins with the sent command, that one
leading occurrence (and an optional following line terminator) is removed;
then line terminators are normalized and the result returned verbatim. -/
def extract (raw cmd : List Char) (stripEcho : Bool) : List Char :=
  if stripEcho && leadsWith cmd raw then
    normEol (dropTerm (raw.drop cmd.length))
  else
    normEol raw

example : extract ("echo\r\nReply\r\n".toList) ("echo".toList) true = "Reply\n".toList := by
  decide

example : extract ("echo\r\nReply\r\n".toList) ("echo".toList) false = "echo\nReply\n".toList := by
  decide

theorem leadsWith_append (p t : List Char) : leadsWith p (p ++ t) = true := by
  induction p with
  | nil => rfl
  | cons c cs ih => simpa [leadsWith] using ih

theorem leadsWith_eq_append (p t : List Char) (h : leadsWith p t = true) :
    t = p ++ t.drop p.length := by
  induction p generalizing t with
  | nil => simp
  | cons c cs ih =>
    cases t with
    | nil => simp [leadsWith] at h
    | cons b bs =>
      simp only [leadsWith, Bool.and_eq_true, beq_iff_eq] at h
      obtain ⟨hc, hrest⟩ := h
      subst hc
      simpa [List.drop] using ih bs hrest

theorem dropTerm_eq_append (t : List Char) : ∃ q, t = q ++ dropTerm t := by
  unfold dropTerm
  split
  · exact ⟨['\r', '\n'], rfl⟩
  · exact ⟨['\n'], rfl⟩
  · exact ⟨['\r'], rfl⟩
  · exact ⟨[], rfl⟩

theorem normEol_cons_length (c : Char) (l : List Char) :
    (normEol l).length ≤ (normEol (c :: l)).length := by
  by_cases hc : c = '\r'
  · subst hc
    cases l with
    | nil => simp [normEol]
    | cons d rest =>
      by_cases hd : d = '\n'
      · subst hd
        cases rest with
        | nil => simp [normEol]
        | cons e rest2 => simp [normEol]
      · simp [normEol, hd]
  · cases l with
    | nil => simp [normEol, hc]
    | cons d rest => simp [normEol, hc]

theorem normEol_append_length (p l : List Char) :
    (normEol l).length ≤ (normEol (p ++ l)).length := by
  induction p with
  | nil => simp
  | cons c cs ih => exact Nat.le_trans ih (normEol_cons_length c (cs ++ l))

theorem normEol_no_cr_append (p l : List Char) (hp : ∀ c ∈ p, c ≠ '\r') :
    normEol (p ++ l) = p ++ normEol l := by
  induction p with
  | nil => rfl
  | cons c cs ih =>
    have hc : c ≠ '\r' := hp c (by simp)
    have hcs : ∀ x ∈ cs, x ≠ '\r' := fun x hx => hp x (by simp [hx])
    cases hcase : cs ++ l with
    | nil =>
      have hl : l = [] := by
        cases cs <;> simp_all
      have hcs0 : cs = [] := by
        cases cs <;> simp_all
      subst hl; subst hcs0
      simp [normEol, hc]
    | cons d rest =>
      have : normEol (c :: (cs ++ l)) = c :: normEol (cs ++ l) := by
        rw [hcase]
        simp [normEol, hc]
      simpa [this] using congrArg (fun t => c :: t) (ih hcs)

theorem containsSeg_self_append (p t : List Char) :
    containsSeg p (p ++ t) = true := by
  cases p with
  | nil =>
    cases t with
    | nil => rfl
    | cons c cs => simp [containsSeg, leadsWith]
  | cons c cs =>
    simp only [List.cons_append, containsSeg, Bool.or_eq_true]
    exact Or.inl (leadsWith_append (c :: cs) t)

theorem containsSeg_append_self (x p : List Char) :
    containsSeg p (x ++ p) = true := by
  induction x with
  | nil => simpa using containsSeg_self_append p []
  | cons c cs ih =>
    simp only [List.cons_append, containsSeg, Bool.or_eq_true]
    exact Or.inr ih

/-- Modelled from the spec: the Connection Adapter together with the remote
endpoint it reaches (4.1).  `openOk` tells whether the single connection
attempt succeeds; `banner` is the text available immediately after connect
(6, 8); `respond` gives the raw text a best-effort read yields after the
given (lifetime-so-far) command history has been written — the empty list
models a read window that elapsed with no data (`ReadTimeout`, 7).  The
`TransportDead` mid-sequence failure of section 7 is not referenced by any
claim and is not modelled: `respond` is total. -/
structure Transport where
  openOk : Bool
  banner : List Char
  respond : List (List Char) → List Char

/-- Modelled from the spec: a Session record (3) — remote endpoint, the
exclusively-owned connection handle (observed through its lifetime command
history `sent`, as the tests do via `commands_sent`), and the liveness flag.
Timestamps (created-at, last-used-at) are wall-clock data and not modelled. -/
structure Session where
  host : List Char
  port : Nat
  sent : List (List Char)
  live : Bool
deriving Repr, DecidableEq

/-- One command's outcome (3): the exact command sent and the extracted,
optionally echo-stripped response.  The wall-clock timestamp is not
modelled. -/
structure CommandResult where
  command : List Char
  response : List Char
deriving Repr, DecidableEq

/-- Aggregate result of one `execute` invocation (3, 6). -/
structure ExecutionResult where
  host : List Char
  port : Nat
  sessionId : Nat
  sessionActive : Bool
  initialBanner : List Char
  responses : List CommandResult
deriving Repr, DecidableEq

/-- Modelled from the spec: the Session Store (4.5) plus the bookkeeping the
claims observe.  `store` is the insertion-ordered mapping from identifier to
Session; `nextId` generates fresh opaque identifiers (identifiers, once
issued, are never reused — 3); `closedLog` records sessions whose Adapter
was closed, so that "the connection is closed on that transition" is an
observable fact of the model. -/
structure World where
  store : List (Nat × Session)
  nextId : Nat
  closedLog : List (Nat × Session)
deriving Repr, DecidableEq

/-- The empty in-memory store at process start (5). -/
def World.empty : World := { store := [], nextId := 0, closedLog := [] }

/-- Store lookup: first entry with the given identifier (4.5 `get`). -/
def lookupSession : List (Nat × Session) → Nat → Option Session
  | [], _ => none
  | (i, s) :: rest, sid => if i = sid then some s else lookupSession rest sid

/-- Store deletion (4.5 `delete`): every entry with the identifier is
removed. -/
def removeSession (st : List (Nat × Session)) (sid : Nat) : List (Nat × Session) :=
  st.filter (fun p => p.1 != sid)

/-- Replace the session stored under `sid`, keeping insertion order. -/
def updateSession (st : List (Nat × Session)) (sid : Nat) (s : Session) :
    List (Nat × Session) :=
  st.map (fun p => if p.1 = sid then (p.1, s) else p)

/-- Modelled from the spec: the Command Executor (4.3) run over a command
sequence.  Each cycle appends the command to the connection's lifetime
history (the write), obtains the raw read for that history from the
transport, and post-processes it with the Extractor; a read that yields no
data still produces a (empty-response) CommandResult.  Returns the final
history and the ordered results. -/
def runCommands (tr : Transport) (strip : Bool) :
    List (List Char) → List (List Char) → List (List Char) × List CommandResult
  | sent, [] => (sent, [])
  | sent, cmd :: rest =>
    let sent2 := sent ++ [cmd]
    let raw := tr.respond sent2
    let r : CommandResult := { command := cmd, response := extract raw cmd strip }
    let step := runCommands tr strip sent2 rest
    (step.1, r :: step.2)

/-- Errors surfaced to the caller as hard failures (7): `connectionFailed`
is the spec's `ConnectionError`; `valueError` is the argument-validation
failure the test suite pins on ill-typed arguments. -/
inductive TelnetError where
  | connectionFailed
  | valueError
deriving Repr, DecidableEq

/-- Modelled from the spec: the `CONNECTING → OPEN` / terminal-failure part
of the Lifecycle Controller (4.4) for a brand-new session.  If the single
open attempt fails, the invocation fails with a connection error and no
Session is registered (the World comes back with the store untouched).
Otherwise the banner is captured with the same read strategy as a command
cycle, the Session is registered under a fresh identifier, the commands run
sequentially, and if `cl` (close_session) is set the Session is purged from
the store and the Adapter closed. -/
def newSessionRun (tr : Transport) (w : World) (host : List Char) (port : Nat)
    (commands : List (List Char)) (strip cl : Bool) :
    Except TelnetError ExecutionResult × World :=
  if tr.openOk then
    let sid := w.nextId
    let run := runCommands tr strip [] commands
    let s : Session := { host := host, port := port, sent := run.1, live := true }
    let res : ExecutionResult :=
      { host := host, port := port, sessionId := sid, sessionActive := !cl,
        initialBanner := normEol tr.banner, responses := run.2 }
    if cl then
      (Except.ok res,
       { store := removeSession w.store sid, nextId := w.nextId + 1,
         closedLog := w.closedLog ++ [(sid, { s with live := false })] })
    else
      (Except.ok res,
       { store := w.store ++ [(sid, s)], nextId := w.nextId + 1,
         closedLog := w.closedLog })
  else
    (Except.error TelnetError.connectionFailed, w)

/-- Modelled from the spec: the Lifecycle Controller path that resolves an
existing Session (4.4): commands are routed to the same underlying
connection (its lifetime history grows by this invocation's commands), the
banner is empty because the session was reused, and `close_session`
optionally purges the Session and closes the Adapter. -/
def reuseSessionRun (tr : Transport) (w : World) (sid : Nat) (s : Session)
    (host : List Char) (port : Nat) (commands : List (List Char)) (strip cl : Bool) :
    Except TelnetError ExecutionResult × World :=
  let run := runCommands tr strip s.sent commands
  let s2 : Session := { s with sent := run.1 }
  let res : ExecutionResult :=
    { host := host, port := port, sessionId := sid, sessionActive := !cl,
      initialBanner := [], responses := run.2 }
  if cl then
    (Except.ok res,
     { w with store := removeSession w.store sid,
              closedLog := w.closedLog ++ [(sid, { s2 with live := false })] })
  else
    (Except.ok res, { w with store := updateSession w.store sid s2 })

/-- Modelled from the spec: the `execute` operation (6) as orchestrated by
the Session Lifecycle Controller (4.4): no identifier, or an identifier
absent from the store, means create a new Session (an unknown identifier is
not an error); a known identifier reuses that Session. -/
def execute (tr : Transport) (w : World) (host : List Char) (port : Nat)
    (commands : List (List Char)) (session_id : Option Nat) (strip cl : Bool) :
    Except TelnetError ExecutionResult × World :=
  match session_id with
  | none => newSessionRun tr w host port commands strip cl
  | some sid =>
    match lookupSession w.store sid with
    | some s => reuseSessionRun tr w sid s host port commands strip cl
    | none => newSessionRun tr w host port commands strip cl

/-- Result of the `closeSession` operation (6). -/
structure CloseResult where
  success : Bool
  message : List Char
deriving Repr, DecidableEq

/-- Modelled from the spec: the `closeSession` operation (6, 7): a present
identifier is deleted from the store and its Adapter closed
(`success = true`); an absent identifier is reported as a structured
failure (`success = false`), never a raised error — the operation is total. -/
def telnet_close_session (w : World) (sid : Nat) : CloseResult × World :=
  match lookupSession w.store sid with
  | some s =>
    ({ success := true, message := "Session closed".toList },
     { w with store := removeSession w.store sid,
              closedLog := w.closedLog ++ [(sid, { s with live := false })] })
  | none =>
    ({ success := false, message := "Session not found".toList }, w)

/-- Result of the `listSessions` operation (6). -/
structure ListResult where
  activeSessions : Nat
  sessions : List (Nat × List Char × Nat)
deriving Repr, DecidableEq

/-- Modelled from the spec: the `listSessions` operation (6): the number of
active sessions and, in insertion order (4.5 `listAll`), each identifier
with its endpoint. -/
def telnet_list_sessions (w : World) : ListResult :=
  { activeSessions := w.store.length,
    sessions := w.store.map (fun p => (p.1, p.2.host, p.2.port)) }

/-- A dynamically-typed argument, as delivered by the tool-invocation
framework before validation. -/
inductive ArgVal where
  | intVal (n : Nat)
  | strVal (s : List Char)
deriving Repr, DecidableEq

/-- Modelled from the spec: the `telnet_client_tool` entry point as the test
suite exercises it.  The spec (1, 6) assumes arguments arrive already
validated, but `test_telnet_client_tool_invalid_input` pins that the tool
itself rejects an ill-typed `port` with a `ValueError` before any
connection attempt; that validation front-end is modelled here ahead of the
spec's core `execute`. -/
def telnet_client_tool (tr : Transport) (w : World) (host : List Char)
    (port : ArgVal) (commands : List (List Char)) (session_id : Option Nat)
    (strip cl : Bool) : Except TelnetError ExecutionResult × World :=
  match port with
  | ArgVal.intVal p => execute tr w host p commands session_id strip cl
  | ArgVal.strVal _ => (Except.error TelnetError.valueError, w)

theorem extract_nil (cmd : List Char) (strip : Bool) : extract [] cmd strip = [] := by
  cases cmd with
  | nil => cases strip <;> rfl
  | cons c cs => cases strip <;> rfl

theorem runCommands_fst (tr : Transport) (strip : Bool) (sent cmds : List (List Char)) :
    (runCommands tr strip sent cmds).1 = sent ++ cmds := by
  induction cmds generalizing sent with
  | nil => simp [runCommands]
  | cons cmd rest ih =>
    simp [runCommands, ih (sent ++ [cmd])]

theorem runCommands_map (tr : Transport) (strip : Bool) (sent cmds : List (List Char)) :
    ((runCommands tr strip sent cmds).2).map (fun r => r.command) = cmds := by
  induction cmds generalizing sent with
  | nil => simp [runCommands]
  | cons cmd rest ih =>
    simp [runCommands, ih (sent ++ [cmd])]

theorem runCommands_length (tr : Transport) (strip : Bool) (sent cmds : List (List Char)) :
    ((runCommands tr strip sent cmds).2).length = cmds.length := by
  have h := runCommands_map tr strip sent cmds
  calc ((runCommands tr strip sent cmds).2).length
      = (((runCommands tr strip sent cmds).2).map (fun r => r.command)).length := by
        simp
    _ = cmds.length := by rw [h]

theorem runCommands_silent (tr : Transport) (strip : Bool) (sent cmds : List (List Char))
    (hq : ∀ h, tr.respond h = []) :
    ∀ r ∈ (runCommands tr strip sent cmds).2, r.response = [] := by
  induction cmds generalizing sent with
  | nil => intro r hr; simp [runCommands] at hr
  | cons cmd rest ih =>
    intro r hr
    simp only [runCommands, List.mem_cons] at hr
    cases hr with
    | inl h0 =>
      subst h0
      simp [hq, extract_nil]
    | inr h1 => exact ih (sent ++ [cmd]) r h1

theorem lookupSession_none_iff (st : List (Nat × Session)) (sid : Nat) :
    lookupSession st sid = none ↔ ∀ p ∈ st, p.1 ≠ sid := by
  induction st with
  | nil => simp [lookupSession]
  | cons q rest ih =>
    cases q with
    | mk i s =>
      by_cases hi : i = sid
      · subst hi
        simp [lookupSession]
      · simp [lookupSession, hi, ih]

theorem lookupSession_append_fresh (st : List (Nat × Session)) (sid : Nat) (s : Session)
    (hf : ∀ p ∈ st, p.1 ≠ sid) :
    lookupSession (st ++ [(sid, s)]) sid = some s := by
  induction st with
  | nil => simp [lookupSession]
  | cons q rest ih =>
    have hq : q.1 ≠ sid := hf q (by simp)
    have hrest : ∀ p ∈ rest, p.1 ≠ sid := fun p hp => hf p (by simp [hp])
    cases q with
    | mk i s0 =>
      simp only [List.cons_append, lookupSession]
      rw [if_neg hq]
      exact ih hrest

theorem lookupSession_remove (st : List (Nat × Session)) (sid : Nat) :
    lookupSession (removeSession st sid) sid = none := by
  rw [lookupSession_none_iff]
  intro p hp
  have := List.of_mem_filter hp
  simpa using this

theorem lookupSession_update (st : List (Nat × Session)) (sid : Nat) (s0 s2 : Session)
    (h : lookupSession st sid = some s0) :
    lookupSession (updateSession st sid s2) sid = some s2 := by
  induction st with
  | nil => simp [lookupSession] at h
  | cons q rest ih =>
    cases q with
    | mk i s1 =>
      by_cases hi : i = sid
      · subst hi
        simp only [updateSession, List.map_cons]
        simp [lookupSession]
      · simp only [lookupSession, if_neg hi] at h
        simp only [updateSession, List.map_cons]
        rw [if_neg (by simpa using hi)]
        simp only [lookupSession]
        rw [if_neg hi]
        simpa [updateSession] using ih h

theorem removeSession_of_fresh (st : List (Nat × Session)) (sid : Nat)
    (hf : ∀ p ∈ st, p.1 ≠ sid) : removeSession st sid = st := by
  induction st with
  | nil => rfl
  | cons q rest ih =>
    have hq : q.1 ≠ sid := hf q (by simp)
    have hrest : ∀ p ∈ rest, p.1 ≠ sid := fun p hp => hf p (by simp [hp])
    simp only [removeSession, List.filter_cons]
    rw [if_pos (by simpa using hq)]
    have := ih hrest
    simp only [removeSession] at this
    rw [this]

theorem removeSession_append (st1 st2 : List (Nat × Session)) (sid : Nat) :
    removeSession (st1 ++ st2) sid = removeSession st1 sid ++ removeSession st2 sid := by
  simp [removeSession, List.filter_append]

theorem updateSession_length (st : List (Nat × Session)) (sid : Nat) (s : Session) :
    (updateSession st sid s).length = st.length := by
  simp [updateSession]

theorem execute_ok_responses (tr : Transport) (w : World) (host : List Char) (port : Nat)
    (cmds : List (List Char)) (sid : Option Nat) (strip cl : Bool)
    (hopen : tr.openOk = true) :
    ∃ res w2 sent0, execute tr w host port cmds sid strip cl = (Except.ok res, w2)
      ∧ res.responses = (runCommands tr strip sent0 cmds).2 := by
  have hnew : ∃ res w2, newSessionRun tr w host port cmds strip cl = (Except.ok res, w2)
      ∧ res.responses = (runCommands tr strip [] cmds).2 := by
    cases cl <;> simp only [newSessionRun, hopen, if_true] <;> exact ⟨_, _, rfl, rfl⟩
  cases sid with
  | none =>
    obtain ⟨res, w2, heq, hresp⟩ := hnew
    exact ⟨res, w2, [], by simpa [execute] using heq, hresp⟩
  | some i =>
    cases hl : lookupSession w.store i with
    | none =>
      obtain ⟨res, w2, heq, hresp⟩ := hnew
      refine ⟨res, w2, [], ?_, hresp⟩
      simpa [execute, hl] using heq
    | some s =>
      have hre : ∃ res w2, reuseSessionRun tr w i s host port cmds strip cl = (Except.ok res, w2)
          ∧ res.responses = (runCommands tr strip s.sent cmds).2 := by
        cases cl <;> simp only [reuseSessionRun] <;> exact ⟨_, _, rfl, rfl⟩
      obtain ⟨res, w2, heq, hresp⟩ := hre
      refine ⟨res, w2, s.sent, ?_, hresp⟩
      simpa [execute, hl] using heq

/-- C1: an `execute` invocation (with the transport accepting the single
connection attempt, when one is needed) never raises past the connect stage:
it returns a result whose `responses` list has exactly one `CommandResult`
per requested command, in the input order; when every read window elapses
with no data the entries are still all present, with empty responses. -/
theorem execute_result_per_command (tr : Transport) (w : World) (host : List Char)
    (port : Nat) (cmds : List (List Char)) (sid : Option Nat) (strip cl : Bool)
    (hopen : tr.openOk = true) :
    ∃ res w2, execute tr w host port cmds sid strip cl = (Except.ok res, w2)
      ∧ res.responses.map (fun r => r.command) = cmds
      ∧ res.responses.length = cmds.length
      ∧ ((∀ hist, tr.respond hist = []) → ∀ r ∈ res.responses, r.response = []) := by
  obtain ⟨res, w2, sent0, heq, hresp⟩ :=
    execute_ok_responses tr w host port cmds sid strip cl hopen
  refine ⟨res, w2, heq, ?_, ?_, ?_⟩
  · rw [hresp]; exact runCommands_map tr strip sent0 cmds
  · rw [hresp]; exact runCommands_length tr strip sent0 cmds
  · intro hq r hr
    rw [hresp] at hr
    exact runCommands_silent tr strip sent0 cmds hq r hr

/-- A transport that accepts the connection and whose every read window
elapses with no data. -/
def trSilent : Transport :=
  { openOk := true, banner := "FakeBanner\r\n".toList, respond := fun _ => [] }

/-- The result of running `["cmd1", "cmd2"]` against `trSilent` on the empty
store. -/
def c1res : ExecutionResult :=
  { host := "127.0.0.1".toList, port := 8023, sessionId := 0, sessionActive := true,
    initialBanner := "FakeBanner\n".toList,
    responses := [{ command := "cmd1".toList, response := [] },
                  { command := "cmd2".toList, response := [] }] }

/-- The store after that invocation. -/
def c1w2 : World :=
  { store := [(0, { host := "127.0.0.1".toList, port := 8023,
                    sent := ["cmd1".toList, "cmd2".toList], live := true })],
    nextId := 1, closedLog := [] }

theorem execute_result_per_command_witness :
    c1res.responses.map (fun r => r.command) = ["cmd1".toList, "cmd2".toList]
    ∧ c1res.responses.length = 2
    ∧ c1res.responses.all (fun r => r.response.isEmpty) = true := by
  obtain ⟨res, w2, heq, hmap, hlen, hsil⟩ :=
    execute_result_per_command trSilent World.empty ("127.0.0.1".toList) 8023
      ["cmd1".toList, "cmd2".toList] none true false rfl
  have h0 : execute trSilent World.empty ("127.0.0.1".toList) 8023
      ["cmd1".toList, "cmd2".toList] none true false = (Except.ok c1res, c1w2) := by
    rfl
  rw [h0] at heq
  simp only [Prod.mk.injEq, Except.ok.injEq] at heq
  obtain ⟨hres, hw⟩ := heq
  subst hres
  refine ⟨hmap, by simpa using hlen, ?_⟩
  have hall := hsil (fun hist => rfl)
  simp only [List.all_eq_true]
  intro r hr
  simp [hall r hr]

/-- C4: when establishing a new connection fails, the whole invocation fails
with a connection error, no Session is registered, and the store (hence the
active-session count) is unchanged. -/
theorem connect_failure_registers_nothing (tr : Transport) (w : World)
    (host : List Char) (port : Nat) (cmds : List (List Char)) (sid : Option Nat)
    (strip cl : Bool) (hopen : tr.openOk = false)
    (hnew : sid = none ∨ ∃ i, sid = some i ∧ lookupSession w.store i = none) :
    execute tr w host port cmds sid strip cl = (Except.error TelnetError.connectionFailed, w)
    ∧ (execute tr w host port cmds sid strip cl).2.store = w.store
    ∧ (telnet_list_sessions (execute tr w host port cmds sid strip cl).2).activeSessions
        = (telnet_list_sessions w).activeSessions := by
  have hfail : newSessionRun tr w host port cmds strip cl
      = (Except.error TelnetError.connectionFailed, w) := by
    simp [newSessionRun, hopen]
  have heq : execute tr w host port cmds sid strip cl
      = (Except.error TelnetError.connectionFailed, w) := by
    cases hnew with
    | inl h0 => subst h0; simpa [execute] using hfail
    | inr h0 =>
      obtain ⟨i, hi, hl⟩ := h0
      subst hi
      simpa [execute, hl] using hfail
  exact ⟨heq, by rw [heq], by rw [heq]⟩

/-- A transport whose single connection attempt fails. -/
def trFail : Transport := { openOk := false, banner := [], respond := fun _ => [] }

theorem connect_failure_registers_nothing_witness :
    execute trFail World.empty ("127.0.0.1".toList) 8023 ["cmd".toList] none true false
      = (Except.error TelnetError.connectionFailed, World.empty)
    ∧ (execute trFail World.empty ("127.0.0.1".toList) 8023 ["cmd".toList]
        none true false).2.store = World.empty.store
    ∧ (telnet_list_sessions (execute trFail World.empty ("127.0.0.1".toList) 8023
        ["cmd".toList] none true false).2).activeSessions
      = (telnet_list_sessions World.empty).activeSessions :=
  connect_failure_registers_nothing trFail World.empty ("127.0.0.1".toList) 8023
    ["cmd".toList] none true false rfl (Or.inl rfl)

/-- C5: `closeSession` reports `success = true` exactly when the identifier
is present in the store; a second call on the same identifier (or any call
on an unknown one) reports `success = false`; the operation is a total
function, so it never raises. -/
theorem close_session_idempotent (w : World) (sid : Nat) :
    ((∃ s, lookupSession w.store sid = some s) →
      (telnet_close_session w sid).1.success = true)
    ∧ (lookupSession w.store sid = none →
      (telnet_close_session w sid).1.success = false)
    ∧ (telnet_close_session (telnet_close_session w sid).2 sid).1.success = false := by
  refine ⟨?_, ?_, ?_⟩
  · rintro ⟨s, hs⟩
    simp [telnet_close_session, hs]
  · intro h0
    simp [telnet_close_session, h0]
  · cases hl : lookupSession w.store sid with
    | some s =>
      have hw2 : (telnet_close_session w sid).2
          = { w with store := removeSession w.store sid,
                     closedLog := w.closedLog ++ [(sid, { s with live := false })] } := by
        simp [telnet_close_session, hl]
      rw [hw2]
      simp [telnet_close_session, lookupSession_remove]
    | none =>
      simp [telnet_close_session, hl]

/-- A store holding one session under identifier 0. -/
def c5sess : Session :=
  { host := "127.0.0.1".toList, port := 8023, sent := ["cmd1".toList], live := true }

/-- A world whose store holds exactly `c5sess`. -/
def c5w : World := { store := [(0, c5sess)], nextId := 1, closedLog := [] }

theorem close_session_idempotent_witness :
    (telnet_close_session c5w 0).1.success = true
    ∧ (telnet_close_session (telnet_close_session c5w 0).2 0).1.success = false :=
  ⟨(close_session_idempotent c5w 0).1 ⟨c5sess, rfl⟩,
   (close_session_idempotent c5w 0).2.2⟩

/-- C2: a session identifier returned by one `execute` invocation and still
present in the store routes a subsequent invocation's commands over the same
underlying connection: afterwards that connection's lifetime command history
is the in-order concatenation of the two invocations' commands, and the
second result carries the same identifier with the session still active. -/
theorem session_reuse_routes_same_connection (tr1 tr2 : Transport) (w : World)
    (host1 host2 : List Char) (port1 port2 : Nat)
    (cmds1 cmds2 : List (List Char)) (strip1 strip2 : Bool)
    (res1 res2 : ExecutionResult) (w1 w2 : World)
    (hfresh : ∀ p ∈ w.store, p.1 ≠ w.nextId)
    (hopen : tr1.openOk = true)
    (h1 : execute tr1 w host1 port1 cmds1 none strip1 false = (Except.ok res1, w1))
    (h2 : execute tr2 w1 host2 port2 cmds2 (some res1.sessionId) strip2 false
        = (Except.ok res2, w2)) :
    res2.sessionId = res1.sessionId
    ∧ res2.sessionActive = true
    ∧ ∃ s, lookupSession w2.store res1.sessionId = some s
        ∧ s.sent = cmds1 ++ cmds2 := by
  have h1x : newSessionRun tr1 w host1 port1 cmds1 strip1 false = (Except.ok res1, w1) := by
    simpa [execute] using h1
  simp only [newSessionRun, hopen, if_true, Bool.not_false, if_false,
    Bool.false_eq_true, Prod.mk.injEq, Except.ok.injEq] at h1x
  obtain ⟨hres1, hw1⟩ := h1x
  subst hres1
  subst hw1
  have hlook : lookupSession
      (w.store ++ [(w.nextId,
        { host := host1, port := port1,
          sent := (runCommands tr1 strip1 [] cmds1).1, live := true })]) w.nextId
      = some { host := host1, port := port1,
               sent := (runCommands tr1 strip1 [] cmds1).1, live := true } :=
    lookupSession_append_fresh w.store w.nextId _ hfresh
  have h2x : reuseSessionRun tr2
      { store := w.store ++ [(w.nextId,
          { host := host1, port := port1,
            sent := (runCommands tr1 strip1 [] cmds1).1, live := true })],
        nextId := w.nextId + 1, closedLog := w.closedLog }
      w.nextId
      { host := host1, port := port1,
        sent := (runCommands tr1 strip1 [] cmds1).1, live := true }
      host2 port2 cmds2 strip2 false = (Except.ok res2, w2) := by
    simpa [execute, hlook] using h2
  simp only [reuseSessionRun, if_false, Bool.not_false, Bool.false_eq_true,
    Prod.mk.injEq, Except.ok.injEq] at h2x
  obtain ⟨hres2, hw2⟩ := h2x
  subst hres2
  subst hw2
  refine ⟨rfl, rfl, ?_⟩
  refine ⟨{ host := host1, port := port1,
            sent := (runCommands tr2 strip2 (runCommands tr1 strip1 [] cmds1).1 cmds2).1,
            live := true }, ?_, ?_⟩
  · exact lookupSession_update _ _ _ _ hlook
  · simp [runCommands_fst]

/-- `execute` with `close_session = true`: shape of a successful result. -/
theorem execute_close_shape (tr : Transport) (w : World) (host : List Char)
    (port : Nat) (cmds : List (List Char)) (sid : Option Nat) (strip : Bool)
    (res : ExecutionResult) (w2 : World)
    (h : execute tr w host port cmds sid strip true = (Except.ok res, w2)) :
    res.sessionActive = false
    ∧ w2.store = removeSession w.store res.sessionId
    ∧ ∃ s, w2.closedLog = w.closedLog ++ [(res.sessionId, s)] ∧ s.live = false := by
  have hnewCase : ∀ (hn : newSessionRun tr w host port cmds strip true = (Except.ok res, w2)),
      res.sessionActive = false
      ∧ w2.store = removeSession w.store res.sessionId
      ∧ ∃ s, w2.closedLog = w.closedLog ++ [(res.sessionId, s)] ∧ s.live = false := by
    intro hn
    cases hopen : tr.openOk with
    | false => simp [newSessionRun, hopen] at hn
    | true =>
      simp only [newSessionRun, hopen, if_true, Bool.not_true,
        Prod.mk.injEq, Except.ok.injEq] at hn
      obtain ⟨hres, hw⟩ := hn
      subst hres
      subst hw
      exact ⟨rfl, rfl, ⟨_, rfl, rfl⟩⟩
  cases sid with
  | none => exact hnewCase (by simpa [execute] using h)
  | some i =>
    cases hl : lookupSession w.store i with
    | none => exact hnewCase (by simpa [execute, hl] using h)
    | some s =>
      have hx : reuseSessionRun tr w i s host port cmds strip true = (Except.ok res, w2) := by
        simpa [execute, hl] using h
      simp only [reuseSessionRun, if_true, Bool.not_true,
        Prod.mk.injEq, Except.ok.injEq] at hx
      obtain ⟨hres, hw⟩ := hx
      subst hres
      subst hw
      exact ⟨rfl, rfl, ⟨_, rfl, rfl⟩⟩

/-- C6: a successful `execute` with `close_session = true` reports the
session inactive, leaves its identifier absent from the store (so a
subsequent `listSessions` does not include it), and closes the connection
(the session appears in the closed log with the liveness flag cleared). -/
theorem execute_close_session_purges (tr : Transport) (w : World) (host : List Char)
    (port : Nat) (cmds : List (List Char)) (sid : Option Nat) (strip : Bool)
    (res : ExecutionResult) (w2 : World)
    (h : execute tr w host port cmds sid strip true = (Except.ok res, w2)) :
    res.sessionActive = false
    ∧ lookupSession w2.store res.sessionId = none
    ∧ (∀ e ∈ (telnet_list_sessions w2).sessions, e.1 ≠ res.sessionId)
    ∧ ∃ s, (res.sessionId, s) ∈ w2.closedLog ∧ s.live = false := by
  obtain ⟨hact, hstore, s, hlog, hlive⟩ :=
    execute_close_shape tr w host port cmds sid strip res w2 h
  have hnone : lookupSession w2.store res.sessionId = none := by
    rw [hstore]; exact lookupSession_remove w.store res.sessionId
  refine ⟨hact, hnone, ?_, ⟨s, ?_, hlive⟩⟩
  · intro e he
    simp only [telnet_list_sessions, List.mem_map] at he
    obtain ⟨p, hp, hpe⟩ := he
    have := (lookupSession_none_iff w2.store res.sessionId).mp hnone p hp
    rw [← hpe]
    exact this
  · rw [hlog]
    simp

/-- C7: a successful new-session `execute` adds exactly one entry — that
session's — at the end of the listing, leaving all other entries unchanged
and raising `activeSessions` by exactly 1; the matching `closeSession`
succeeds, removes exactly that entry, and lowers the count by exactly 1. -/
theorem session_count_frame (tr : Transport) (w : World) (host : List Char)
    (port : Nat) (cmds : List (List Char)) (strip : Bool)
    (r : ExecutionResult) (w1 : World)
    (hfresh : ∀ p ∈ w.store, p.1 ≠ w.nextId)
    (hopen : tr.openOk = true)
    (h : execute tr w host port cmds none strip false = (Except.ok r, w1)) :
    ∃ s, w1.store = w.store ++ [(w.nextId, s)]
    ∧ (telnet_list_sessions w1).activeSessions
        = (telnet_list_sessions w).activeSessions + 1
    ∧ (telnet_list_sessions w1).sessions
        = (telnet_list_sessions w).sessions ++ [(w.nextId, host, port)]
    ∧ (telnet_close_session w1 w.nextId).1.success = true
    ∧ (telnet_close_session w1 w.nextId).2.store = w.store
    ∧ (telnet_list_sessions (telnet_close_session w1 w.nextId).2).activeSessions
        = (telnet_list_sessions w).activeSessions := by
  have hx : newSessionRun tr w host port cmds strip false = (Except.ok r, w1) := by
    simpa [execute] using h
  simp only [newSessionRun, hopen, if_true, Bool.not_false, if_false,
    Bool.false_eq_true, Prod.mk.injEq, Except.ok.injEq] at hx
  obtain ⟨hres, hw⟩ := hx
  subst hres
  subst hw
  refine ⟨_, rfl, ?_, ?_, ?_, ?_, ?_⟩
  · simp [telnet_list_sessions]
  · simp [telnet_list_sessions]
  · have hlook := lookupSession_append_fresh w.store w.nextId
      { host := host, port := port,
        sent := (runCommands tr strip [] cmds).1, live := true } hfresh
    simp [telnet_close_session, hlook]
  · have hlook := lookupSession_append_fresh w.store w.nextId
      { host := host, port := port,
        sent := (runCommands tr strip [] cmds).1, live := true } hfresh
    simp only [telnet_close_session, hlook]
    rw [removeSession_append, removeSession_of_fresh w.store w.nextId hfresh]
    simp [removeSession]
  · have hlook := lookupSession_append_fresh w.store w.nextId
      { host := host, port := port,
        sent := (runCommands tr strip [] cmds).1, live := true } hfresh
    simp only [telnet_close_session, hlook]
    rw [removeSession_append, removeSession_of_fresh w.store w.nextId hfresh]
    simp [removeSession, telnet_list_sessions]

/-- C8: `execute` creates a new Session exactly when no identifier, or an
identifier absent from the store, is supplied: in both cases the invocation
succeeds (an unknown identifier is not an error) and the result carries a
freshly generated identifier matching no stored entry — even one with the
same host and port; a known identifier reuses that Session, consuming no
fresh identifier and leaving the store's size unchanged. -/
theorem session_creation_policy (tr : Transport) (w : World) (host : List Char)
    (port : Nat) (cmds : List (List Char)) (strip : Bool)
    (hfresh : ∀ p ∈ w.store, p.1 ≠ w.nextId)
    (hopen : tr.openOk = true) :
    (∃ r w1, execute tr w host port cmds none strip false = (Except.ok r, w1)
      ∧ r.sessionId = w.nextId ∧ ∀ p ∈ w.store, p.1 ≠ r.sessionId)
    ∧ (∀ i, lookupSession w.store i = none →
        ∃ r w1, execute tr w host port cmds (some i) strip false = (Except.ok r, w1)
          ∧ r.sessionId = w.nextId ∧ ∀ p ∈ w.store, p.1 ≠ r.sessionId)
    ∧ (∀ i s, lookupSession w.store i = some s →
        ∃ r w1, execute tr w host port cmds (some i) strip false = (Except.ok r, w1)
          ∧ r.sessionId = i ∧ w1.store.length = w.store.length
          ∧ w1.nextId = w.nextId) := by
  have hnew : ∃ r w1, newSessionRun tr w host port cmds strip false = (Except.ok r, w1)
      ∧ r.sessionId = w.nextId := by
    simp only [newSessionRun, hopen, if_true, Bool.false_eq_true, if_false]
    exact ⟨_, _, rfl, rfl⟩
  refine ⟨?_, ?_, ?_⟩
  · obtain ⟨r, w1, heq, hid⟩ := hnew
    exact ⟨r, w1, by simpa [execute] using heq, hid, fun p hp => hid ▸ hfresh p hp⟩
  · intro i hi
    obtain ⟨r, w1, heq, hid⟩ := hnew
    exact ⟨r, w1, by simpa [execute, hi] using heq, hid, fun p hp => hid ▸ hfresh p hp⟩
  · intro i s hi
    refine ⟨{ host := host, port := port, sessionId := i, sessionActive := true,
              initialBanner := [],
              responses := (runCommands tr strip s.sent cmds).2 },
            { w with store := updateSession w.store i { s with sent := (runCommands tr strip s.sent cmds).1 } },
            ?_, rfl, ?_, rfl⟩
    · simp only [execute, hi]
      rfl
    · simp [updateSession_length]

/-- C9: on a successful invocation, `initialBanner` is the banner text read
right after connect (with the command-cycle read post-processing) exactly
when a new session was created, and is empty exactly when an existing
session was reused. -/
theorem initial_banner_policy (tr : Transport) (w : World) (host : List Char)
    (port : Nat) (cmds : List (List Char)) (sid : Option Nat) (strip cl : Bool)
    (res : ExecutionResult) (w2 : World)
    (h : execute tr w host port cmds sid strip cl = (Except.ok res, w2)) :
    ((sid = none ∨ ∃ i, sid = some i ∧ lookupSession w.store i = none) →
      res.initialBanner = normEol tr.banner)
    ∧ (∀ i s, sid = some i → lookupSession w.store i = some s →
      res.initialBanner = []) := by
  have hnewCase : ∀ (hn : newSessionRun tr w host port cmds strip cl = (Except.ok res, w2)),
      res.initialBanner = normEol tr.banner := by
    intro hn
    cases hopen : tr.openOk with
    | false => simp [newSessionRun, hopen] at hn
    | true =>
      rcases cl with _ | _ <;>
        simp only [newSessionRun, hopen, if_true, Bool.false_eq_true, if_false,
          Prod.mk.injEq, Except.ok.injEq] at hn <;>
        obtain ⟨hres, hw⟩ := hn <;>
        subst hres <;> rfl
  constructor
  · rintro (h0 | ⟨i, h0, hl⟩)
    · subst h0
      exact hnewCase (by simpa [execute] using h)
    · subst h0
      exact hnewCase (by simpa [execute, hl] using h)
  · intro i s h0 hl
    subst h0
    have hx : reuseSessionRun tr w i s host port cmds strip cl = (Except.ok res, w2) := by
      simpa [execute, hl] using h
    rcases cl with _ | _ <;>
      simp only [reuseSessionRun, if_true, Bool.false_eq_true, if_false,
        Prod.mk.injEq, Except.ok.injEq] at hx <;>
      obtain ⟨hres, hw⟩ := hx <;>
      subst hres <;> rfl

/-- C10: `telnet_client_tool` validates its own arguments before any
connection attempt: an ill-typed port (a string instead of an integer)
makes the call fail with a `ValueError`-style validation error — not a
connection error, whatever the transport would do — and leaves the world,
hence the session store and its active count, unchanged. -/
theorem tool_validates_port_type (tr : Transport) (w : World) (host : List Char)
    (badPort : List Char) (cmds : List (List Char)) (sid : Option Nat)
    (strip cl : Bool) :
    telnet_client_tool tr w host (ArgVal.strVal badPort) cmds sid strip cl
      = (Except.error TelnetError.valueError, w)
    ∧ (telnet_list_sessions (telnet_client_tool tr w host (ArgVal.strVal badPort)
        cmds sid strip cl).2).activeSessions
      = (telnet_list_sessions w).activeSessions :=
  ⟨rfl, rfl⟩

/-- C3: with echo stripping enabled the extractor strips nothing when the
text does not begin with the command, and strips exactly the one leading
occurrence (plus an optional line terminator) when it does; the unstripped
response is always at least as long as the stripped one; and on an echoing
transport (raw text = command, CRLF, reply) the unstripped response still
contains both the command text and the stripped reply. -/
theorem extract_echo_strip_spec (raw cmd : List Char) :
    (leadsWith cmd raw = false → extract raw cmd true = extract raw cmd false)
    ∧ (leadsWith cmd raw = true →
        extract raw cmd true = normEol (dropTerm (raw.drop cmd.length)))
    ∧ (extract raw cmd true).length ≤ (extract raw cmd false).length
    ∧ (∀ reply, raw = cmd ++ '\r' :: '\n' :: reply → (∀ c ∈ cmd, c ≠ '\r') →
        containsSeg cmd (extract raw cmd false) = true
        ∧ containsSeg (extract raw cmd true) (extract raw cmd false) = true
        ∧ extract raw cmd true = normEol reply) := by
  have hfalse : extract raw cmd false = normEol raw := by
    simp [extract]
  refine ⟨?_, ?_, ?_, ?_⟩
  · intro hlw
    simp [extract, hlw]
  · intro hlw
    simp [extract, hlw]
  · cases hlw : leadsWith cmd raw with
    | false => simp [extract, hlw]
    | true =>
      have htrue : extract raw cmd true = normEol (dropTerm (raw.drop cmd.length)) := by
        simp [extract, hlw]
      have hsplit : raw = cmd ++ raw.drop cmd.length := leadsWith_eq_append cmd raw hlw
      obtain ⟨q, hq⟩ := dropTerm_eq_append (raw.drop cmd.length)
      rw [htrue, hfalse]
      calc (normEol (dropTerm (raw.drop cmd.length))).length
          ≤ (normEol (q ++ dropTerm (raw.drop cmd.length))).length :=
            normEol_append_length q _
        _ = (normEol (raw.drop cmd.length)).length := by rw [← hq]
        _ ≤ (normEol (cmd ++ raw.drop cmd.length)).length :=
            normEol_append_length cmd _
        _ = (normEol raw).length := by rw [← hsplit]
  · intro reply hraw hcr
    subst hraw
    have hlw : leadsWith cmd (cmd ++ '\r' :: '\n' :: reply) = true :=
      leadsWith_append cmd _
    have hdrop : (cmd ++ '\r' :: '\n' :: reply).drop cmd.length
        = '\r' :: '\n' :: reply := List.drop_left cmd _
    have htrue : extract (cmd ++ '\r' :: '\n' :: reply) cmd true = normEol reply := by
      simp only [extract, hlw, Bool.and_true, if_true, hdrop]
      rfl
    have hfalse2 : extract (cmd ++ '\r' :: '\n' :: reply) cmd false
        = cmd ++ '\n' :: normEol reply := by
      rw [hfalse, normEol_no_cr_append cmd _ hcr]
      rfl
    refine ⟨?_, ?_, htrue⟩
    · rw [hfalse2]
      exact containsSeg_self_append cmd _
    · rw [htrue, hfalse2]
      have hassoc : cmd ++ '\n' :: normEol reply = (cmd ++ ['\n']) ++ normEol reply := by
        simp
      rw [hassoc]
      exact containsSeg_append_self (cmd ++ ['\n']) (normEol reply)

/-- A transport that mirrors the test suite's FakeTelnet: a banner before any
command, then every read echoes the last command followed by
"Response to <command>". -/
def trEcho : Transport :=
  { openOk := true, banner := "FakeBanner\r\n".toList,
    respond := fun hist =>
      match hist.getLast? with
      | some cmd => cmd ++ "\r\n".toList ++ "Response to ".toList ++ cmd ++ "\r\n".toList
      | none => [] }

/-- Result of the first invocation (["cmd1"], new session) against `trEcho`. -/
def c2res1 : ExecutionResult :=
  { host := "127.0.0.1".toList, port := 8023, sessionId := 0, sessionActive := true,
    initialBanner := "FakeBanner\n".toList,
    responses := [{ command := "cmd1".toList, response := "Response to cmd1\n".toList }] }

/-- World after the first invocation. -/
def c2w1 : World :=
  { store := [(0, { host := "127.0.0.1".toList, port := 8023,
                    sent := ["cmd1".toList], live := true })],
    nextId := 1, closedLog := [] }

/-- Result of the second invocation (["cmd2"], reusing session 0). -/
def c2res2 : ExecutionResult :=
  { host := "127.0.0.1".toList, port := 8023, sessionId := 0, sessionActive := true,
    initialBanner := [],
    responses := [{ command := "cmd2".toList, response := "Response to cmd2\n".toList }] }

/-- World after the second invocation. -/
def c2w2 : World :=
  { store := [(0, { host := "127.0.0.1".toList, port := 8023,
                    sent := ["cmd1".toList, "cmd2".toList], live := true })],
    nextId := 1, closedLog := [] }

theorem session_reuse_routes_same_connection_witness :
    c2res2.sessionId = c2res1.sessionId ∧ c2res2.sessionActive = true
    ∧ lookupSession c2w2.store c2res1.sessionId
        = some { host := "127.0.0.1".toList, port := 8023,
                 sent := ["cmd1".toList, "cmd2".toList], live := true } := by
  have h := session_reuse_routes_same_connection trEcho trEcho World.empty
      ("127.0.0.1".toList) ("127.0.0.1".toList) 8023 8023
      ["cmd1".toList] ["cmd2".toList] true true c2res1 c2res2 c2w1 c2w2
      (by simp [World.empty]) rfl rfl rfl
  exact ⟨h.1, h.2.1, rfl⟩

/-- Result of executing ["cmd"] with close_session = true against `trEcho`. -/
def c6res : ExecutionResult :=
  { host := "127.0.0.1".toList, port := 8023, sessionId := 0, sessionActive := false,
    initialBanner := "FakeBanner\n".toList,
    responses := [{ command := "cmd".toList, response := "Response to cmd\n".toList }] }

/-- World after that auto-closing invocation. -/
def c6w2 : World :=
  { store := [], nextId := 1,
    closedLog := [(0, { host := "127.0.0.1".toList, port := 8023,
                        sent := ["cmd".toList], live := false })] }

theorem execute_close_session_purges_witness :
    c6res.sessionActive = false ∧ lookupSession c6w2.store c6res.sessionId = none := by
  have h := execute_close_session_purges trEcho World.empty ("127.0.0.1".toList) 8023
      ["cmd".toList] none true c6res c6w2 rfl
  exact ⟨h.1, h.2.1⟩

theorem session_count_frame_witness :
    (telnet_list_sessions c2w1).activeSessions
        = (telnet_list_sessions World.empty).activeSessions + 1
    ∧ (telnet_close_session c2w1 0).1.success = true
    ∧ (telnet_close_session c2w1 0).2.store = World.empty.store
    ∧ (telnet_list_sessions (telnet_close_session c2w1 0).2).activeSessions
        = (telnet_list_sessions World.empty).activeSessions := by
  obtain ⟨s, hstore, hcount, hlist, hsucc, hclosestore, hclosecount⟩ :=
    session_count_frame trEcho World.empty ("127.0.0.1".toList) 8023 ["cmd1".toList]
      true c2res1 c2w1 (by simp [World.empty]) rfl rfl
  exact ⟨hcount, hsucc, hclosestore, hclosecount⟩

/-- A pre-existing session at the same endpoint, stored under identifier 5. -/
def c8sess : Session :=
  { host := "127.0.0.1".toList, port := 8023, sent := [], live := true }

/-- A world already holding `c8sess`, with 6 as the next fresh identifier. -/
def c8w : World := { store := [(5, c8sess)], nextId := 6, closedLog := [] }

/-- Result of a no-identifier invocation against `c8w`: a fresh session 6,
not a silent match of stored session 5 at the same host and port. -/
def c8resNew : ExecutionResult :=
  { host := "127.0.0.1".toList, port := 8023, sessionId := 6, sessionActive := true,
    initialBanner := "FakeBanner\n".toList,
    responses := [{ command := "cmd".toList, response := "Response to cmd\n".toList }] }

/-- World after that no-identifier invocation. -/
def c8w1New : World :=
  { store := [(5, c8sess),
              (6, { host := "127.0.0.1".toList, port := 8023,
                    sent := ["cmd".toList], live := true })],
    nextId := 7, closedLog := [] }

/-- Result of a known-identifier invocation (session 5) against `c8w`. -/
def c8resOld : ExecutionResult :=
  { host := "127.0.0.1".toList, port := 8023, sessionId := 5, sessionActive := true,
    initialBanner := [],
    responses := [{ command := "cmd".toList, response := "Response to cmd\n".toList }] }

/-- World after the known-identifier invocation. -/
def c8w3 : World :=
  { store := [(5, { host := "127.0.0.1".toList, port := 8023,
                    sent := ["cmd".toList], live := true })],
    nextId := 6, closedLog := [] }

theorem session_creation_policy_witness :
    c8resNew.sessionId = c8w.nextId ∧ c8resOld.sessionId = 5
    ∧ c8w3.store.length = c8w.store.length := by
  have hfr : ∀ p ∈ c8w.store, p.1 ≠ c8w.nextId := by
    intro p hp
    have hp5 : p = (5, c8sess) := by simpa [c8w] using hp
    subst hp5
    decide
  obtain ⟨⟨r1, w1, heq1, hid1, hfr1⟩, hunk, hknown⟩ :=
    session_creation_policy trEcho c8w ("127.0.0.1".toList) 8023 ["cmd".toList]
      true hfr rfl
  obtain ⟨r3, w3, heq3, hid3, hlen3, hnid3⟩ := hknown 5 c8sess rfl
  have e1 : execute trEcho c8w ("127.0.0.1".toList) 8023 ["cmd".toList] none true false
      = (Except.ok c8resNew, c8w1New) := rfl
  have e3 : execute trEcho c8w ("127.0.0.1".toList) 8023 ["cmd".toList] (some 5) true false
      = (Except.ok c8resOld, c8w3) := rfl
  rw [e1] at heq1
  rw [e3] at heq3
  simp only [Prod.mk.injEq, Except.ok.injEq] at heq1 heq3
  obtain ⟨hr1, hw1⟩ := heq1
  obtain ⟨hr3, hw3⟩ := heq3
  refine ⟨?_, ?_, ?_⟩
  · rw [hr1]; exact hid1
  · rw [hr3]; exact hid3
  · rw [← hw3] at hlen3; exact hlen3

theorem initial_banner_policy_witness :
    c2res1.initialBanner = normEol trEcho.banner ∧ c2res2.initialBanner = [] := by
  have h1 := initial_banner_policy trEcho World.empty ("127.0.0.1".toList) 8023
      ["cmd1".toList] none true false c2res1 c2w1 rfl
  have h2 := initial_banner_policy trEcho c2w1 ("127.0.0.1".toList) 8023
      ["cmd2".toList] (some 0) true false c2res2 c2w2 rfl
  refine ⟨h1.1 (Or.inl rfl), ?_⟩
  exact h2.2 0 { host := "127.0.0.1".toList, port := 8023,
                 sent := ["cmd1".toList], live := true } rfl rfl

/-- Raw echoing output for the command "echo_test", as in the test suite. -/
def c3raw : List Char := "echo_test\r\nResponse to echo_test\r\n".toList

/-- The command whose echo is to be stripped. -/
def c3cmd : List Char := "echo_test".toList

/-- The reply part of `c3raw`, after the echoed command and its CRLF. -/
def c3reply : List Char := "Response to echo_test\r\n".toList

theorem extract_echo_strip_spec_witness :
    extract c3raw c3cmd true = "Response to echo_test\n".toList
    ∧ containsSeg c3cmd (extract c3raw c3cmd false) = true
    ∧ containsSeg (extract c3raw c3cmd true) (extract c3raw c3cmd false) = true
    ∧ (extract c3raw c3cmd true).length ≤ (extract c3raw c3cmd false).length := by
  have h := extract_echo_strip_spec c3raw c3cmd
  have h4 := h.2.2.2 c3reply (by decide) (by decide)
  refine ⟨?_, h4.1, h4.2.1, h.2.2.1⟩
  rw [h4.2.2]
  decide
